import Mathlib

/-!
# blog-cli: a shallow embedding of `main.go`

The program is a single Go file: a configuration store (`LoadConfig`,
`SaveConfig`), the start-up code in `init`, and the four cobra handlers
`set`, `get`, `ping` and `add`.

Modelling conventions.

* A Go `string` and a Go `[]byte` are both sequences of bytes (`GoString`,
  `Bytes`); the conversion `string(content)` is the identity.
* A Go `int` is modelled by `Int`; the program performs no arithmetic on it.
* The operating system, the network and the third-party libraries are the
  environment.  The file system is an explicit state (`FS`) that says for every
  path what a read returns and what a write does; the YAML codec, the HTTP
  transport, `os.UserHomeDir` and `filepath.Join` are fields of `Env`.
* What a run does is recorded as a list of `Event`s in program order, together
  with the exit status, the in-memory configuration and the final file system.
* `defer resp.Body.Close()` has no observable effect and is left out; the time
  stamp that `log.Fatalf` puts in front of its line is left out as well.
-/

namespace BlogCli

/-! ## Strings and formatting -/

/-- Go strings are byte sequences. -/
abbrev GoString := List UInt8

/-- Byte slices. -/
abbrev Bytes := List UInt8

/-- The bytes of an ASCII string literal of the source. -/
def ascii (s : String) : GoString :=
  s.toList.map (fun c => c.toNat.toUInt8)

deriving instance DecidableEq for Except

/-- A Go `error`; `msg` is what its `Error()` method returns. -/
structure Error where
  msg : GoString
deriving DecidableEq, Repr

/-- Decimal digits of a natural number, most significant first (`fuel` bounds the
number of digits). -/
def decimalDigits : Nat → Nat → List UInt8 → List UInt8
  | 0, _, acc => acc
  | fuel + 1, n, acc =>
    let acc' := (48 + n % 10).toUInt8 :: acc
    if n / 10 = 0 then acc' else decimalDigits fuel (n / 10) acc'

/-- What the verb `%d` prints for an `int`. -/
def decimal : Int → GoString
  | .ofNat n => decimalDigits (n + 1) n []
  | .negSucc n => 45 :: decimalDigits (n + 2) (n + 1) []

/-- An operand of `fmt.Printf`, `fmt.Sprintf` or `log.Fatalf`. -/
inductive Arg where
  | str (s : GoString)
  | int (n : Int)
  | err (e : Error)
deriving DecidableEq, Repr

/-- The text of an operand under the verb the program pairs it with: `%s` for a
string, `%d` for an int, `%s` or `%v` for an error. -/
def Arg.text : Arg → GoString
  | .str s => s
  | .int n => decimal n
  | .err e => e.msg

/-- Expansion of a format string: every `%s`, `%d` and `%v` takes the next operand,
every other character is copied. -/
def expand : List Char → List Arg → GoString
  | [], _ => []
  | '%' :: 's' :: rest, a :: as => a.text ++ expand rest as
  | '%' :: 'd' :: rest, a :: as => a.text ++ expand rest as
  | '%' :: 'v' :: rest, a :: as => a.text ++ expand rest as
  | c :: rest, as => c.toNat.toUInt8 :: expand rest as

/-- The function `fmt.Sprintf`, for the verbs and operands the program uses. -/
def Sprintf (format : String) (args : List Arg) : GoString :=
  expand format.toList args

/-! ## Data model (`main.go` lines 26-39) -/

/-- The Go type `Config` (yaml keys `host` and `port`). -/
structure Config where
  Host : GoString
  Port : Int
deriving DecidableEq, Repr

/-- The Go type `Blog`. -/
structure Blog where
  Id : Int
  Title : GoString
  Content : GoString
  Category : GoString
  Tags : GoString
  ViewCount : Int
  Author : GoString
deriving DecidableEq, Repr

/-! ## The file system -/

/-- File-system state.  `read name` is what `os.ReadFile name` returns in this state
(an error for an absent or unreadable file).  `write name data` is what
`os.WriteFile(name, data, 0644)` does in this state: the error it returns, if any, and
what a read of `name` returns afterwards.  For a regular file that can be read this is
`(none, .ok data)`; for a write-only file it is `(none, .error _)`, for `/dev/null` it
is `(none, .ok [])`, and for a write that fails after the file was truncated it is
`(some _, .ok [])`. -/
structure FS where
  read : GoString → Except Error Bytes
  write : GoString → Bytes → Option Error × Except Error Bytes

/-- The call `os.ReadFile(name)`. -/
def os.ReadFile (fs : FS) (name : GoString) : Except Error Bytes :=
  fs.read name

/-- The call `os.WriteFile(name, data, 0644)`.  Whether it fails or not, a read of
`name` afterwards returns what the state says for this write, and every other file is
untouched; the result is the state after the call, together with the error if the call
failed. -/
def os.WriteFile (fs : FS) (name : GoString) (data : Bytes) : Except (Error × FS) FS :=
  let after : FS := ⟨fun p => if p = name then (fs.write name data).2 else fs.read p, fs.write⟩
  match (fs.write name data).1 with
  | some e => .error (e, after)
  | none => .ok after

/-! ## The YAML codec (gopkg.in/yaml.v3) -/

/-- The two entry points of the YAML library that the program calls, at the type
`Config`.  `Unmarshal data` is the result of `yaml.Unmarshal(data, &config)` on a
zero-valued `config`. -/
structure Yaml where
  Marshal : Config → Except Error Bytes
  Unmarshal : Bytes → Except Error Config

/-! ## Config store (`main.go` lines 41-63) -/

/-- The function `LoadConfig`. -/
def LoadConfig (yaml : Yaml) (fs : FS) (file : GoString) : Except Error Config :=
  match os.ReadFile fs file with
  | .error err => .error err
  | .ok data =>
    match yaml.Unmarshal data with
    | .error err => .error err
    | .ok config => .ok config

/-- The function `SaveConfig`; the result is the file system after the call, together
with the error if the call failed. -/
def SaveConfig (yaml : Yaml) (fs : FS) (file : GoString) (config : Config) :
    Except (Error × FS) FS :=
  match yaml.Marshal config with
  | .error err => .error (err, fs)
  | .ok data => os.WriteFile fs file data

/-! ## JSON encoding of a `Blog` (encoding/json)

`json.Marshal` is the Go standard library's.  The model keeps what the library
documents for a struct of ints and strings: one object, one member per field in
declaration order, named by the field's `json` tag, an int as a number, a string
as a JSON string "coerced to valid UTF-8, replacing invalid bytes with the
Unicode replacement rune".  A JSON text is represented by the object it denotes
and a JSON string by the UTF-8 encoding of its characters. -/

/-- Continuation bytes `0x80..0xBF`. -/
def utf8.isCont (b : UInt8) : Bool := 0x80 ≤ b && b ≤ 0xBF

/-- Lowest second byte that the lead byte `b0` of a three- or four-byte encoding
accepts. -/
def utf8.lo (b0 : UInt8) : UInt8 :=
  if b0 = 0xE0 then 0xA0 else if b0 = 0xF0 then 0x90 else 0x80

/-- Highest second byte that the lead byte `b0` of a three- or four-byte encoding
accepts. -/
def utf8.hi (b0 : UInt8) : UInt8 :=
  if b0 = 0xED then 0x9F else if b0 = 0xF4 then 0x8F else 0xBF

/-- Width of the UTF-8 encoding at the head of `s`, as `utf8.DecodeRuneInString`
accepts it, and `0` where the head is not a valid encoding (Go then reports
`RuneError` with width 1). -/
def utf8.width : List UInt8 → Nat
  | [] => 0
  | b0 :: rest =>
    if b0 < 0x80 then 1
    else if 0xC2 ≤ b0 && b0 ≤ 0xDF then
      match rest with
      | b1 :: _ => if utf8.isCont b1 then 2 else 0
      | _ => 0
    else if 0xE0 ≤ b0 && b0 ≤ 0xEF then
      match rest with
      | b1 :: b2 :: _ =>
        if utf8.lo b0 ≤ b1 && b1 ≤ utf8.hi b0 && utf8.isCont b2 then 3 else 0
      | _ => 0
    else if 0xF0 ≤ b0 && b0 ≤ 0xF4 then
      match rest with
      | b1 :: b2 :: b3 :: _ =>
        if utf8.lo b0 ≤ b1 && b1 ≤ utf8.hi b0 && utf8.isCont b2 && utf8.isCont b3 then 4
        else 0
      | _ => 0
    else 0

/-- Validity scan; `k` is the number of bytes of an accepted encoding still to be
skipped. -/
def utf8.validFrom : Nat → List UInt8 → Bool
  | _, [] => true
  | k + 1, _ :: rest => utf8.validFrom k rest
  | 0, b :: rest =>
    match utf8.width (b :: rest) with
    | 0 => false
    | n + 1 => utf8.validFrom n rest

/-- The function `utf8.ValidString`. -/
def utf8.ValidString (s : GoString) : Bool := utf8.validFrom 0 s

/-- Coercion scan; `k` is the number of bytes of an accepted encoding still to be
copied. -/
def json.coerceFrom : Nat → List UInt8 → List UInt8
  | _, [] => []
  | k + 1, b :: rest => b :: json.coerceFrom k rest
  | 0, b :: rest =>
    match utf8.width (b :: rest) with
    | 0 => 0xEF :: 0xBF :: 0xBD :: json.coerceFrom 0 rest
    | n + 1 => b :: json.coerceFrom n rest

/-- The characters of the JSON string that `json.Marshal` writes for the Go string
`s`: valid encodings are kept, every other byte becomes U+FFFD (`EF BF BD`). -/
def json.coerce (s : GoString) : GoString := json.coerceFrom 0 s

/-- The values that occur in the encoding of a `Blog`. -/
inductive json.Value where
  | number (n : Int)
  | string (s : GoString)
deriving DecidableEq, Repr

/-- A JSON text that is an object: its members in order. -/
structure json.Document where
  members : List (String × json.Value)
deriving DecidableEq, Repr

/-- The call `json.Marshal(blog)`; the member names are the `json` tags of lines
32-38. -/
def json.Marshal (blog : Blog) : Except Error json.Document :=
  .ok ⟨[("Id", .number blog.Id),
        ("Title", .string (json.coerce blog.Title)),
        ("Content", .string (json.coerce blog.Content)),
        ("Category", .string (json.coerce blog.Category)),
        ("Tags", .string (json.coerce blog.Tags)),
        ("ViewCount", .number blog.ViewCount),
        ("Author", .string (json.coerce blog.Author))]⟩

/-! ## The environment of a run -/

/-- The outcome of `io.ReadAll` on a response body: the bytes read, and the error
that ended the read if there was one. -/
structure Body where
  data : Bytes
  err : Option Error
deriving DecidableEq, Repr

/-- The part of `http.Response` the program looks at. -/
structure Response where
  StatusCode : Int
  Body : Body
deriving DecidableEq, Repr

/-- The call `io.ReadAll(resp.Body)`. -/
def io.ReadAll (b : Body) : Bytes × Option Error := (b.data, b.err)

/-- Everything outside the program except the file system. -/
structure Env where
  /-- The call `os.UserHomeDir()`. -/
  UserHomeDir : Except Error GoString
  /-- The function `filepath.Join` on two elements. -/
  Join : GoString → GoString → GoString
  /-- The YAML library. -/
  yaml : Yaml
  /-- The call `client.Get(url)` of a client with a five-second timeout. -/
  Get : GoString → Except Error Response
  /-- The call `http.Post(url, contentType, body)`. -/
  Post : GoString → GoString → json.Document → Except Error Response

/-- What a run does, in program order. -/
inductive Event where
  /-- A call of `fmt.Printf`. -/
  | printf (format : String) (args : List Arg)
  /-- A call of `log.Fatalf`: the line goes to standard error and the process exits
  with status 1. -/
  | fatalf (format : String) (args : List Arg)
  /-- A call of `client.Get(url)`. -/
  | get (url : GoString)
  /-- A call of `http.Post(url, contentType, body)`. -/
  | post (url : GoString) (contentType : GoString) (body : json.Document)
deriving DecidableEq, Repr

/-- The formatted message of an event (nothing for a request). -/
def Event.text : Event → GoString
  | .printf f as => Sprintf f as
  | .fatalf f as => Sprintf f as
  | .get _ => []
  | .post _ _ _ => []

/-- Result of running a handler.  `exit` is `some 1` when the handler ended the
process through `log.Fatalf` and `none` when it returned; `config` is the in-memory
configuration when it ended. -/
structure Result where
  trace : List Event
  exit : Option Nat
  config : Config
  fs : FS

/-! ## The handlers (`main.go` lines 83-196)

Each handler is a closure of `init`; the variables it captures (`config`, `err`,
`configFile`) and the flag variables it reads (`host`, `port`, `id`, `title`) are
arguments here. -/

/-- The `Run` function of `setCmd`. -/
def setCmd (env : Env) (configFile : GoString) (config : Config)
    (host : GoString) (port : Int) (fs : FS) : Result :=
  let config := { config with Host := host }
  let config := { config with Port := port }
  match SaveConfig env.yaml fs configFile config with
  | .error (err, fs') =>
    ⟨[.fatalf "Error saving config: %v" [.err err]], some 1, config, fs'⟩
  | .ok fs' =>
    ⟨[.printf "Configuration updated:\nHost: %s\nPort: %d\n"
        [.str config.Host, .int config.Port]], none, config, fs'⟩

/-- The `Run` function of `getCmd`; `err` is the variable of `init` it captures. -/
def getCmd (err : Option Error) (config : Config) (fs : FS) : Result :=
  match err with
  | some e => ⟨[.fatalf "Error loading config: %v" [.err e]], some 1, config, fs⟩
  | none =>
    ⟨[.printf "Current configuration:\nHost: %s\nPort: %d\n"
        [.str config.Host, .int config.Port]], none, config, fs⟩

/-- The `Run` function of `pingCmd`; `err` is the variable of `init` it captures. -/
def pingCmd (env : Env) (err : Option Error) (config : Config) (fs : FS) : Result :=
  match err with
  | some e => ⟨[.fatalf "Error loading config: %v" [.err e]], some 1, config, fs⟩
  | none =>
    let url := Sprintf "http://%s:%d/ping" [.str config.Host, .int config.Port]
    let sent : List Event := [.printf "Pinging %s...\n" [.str url], .get url]
    match env.Get url with
    | .error err => ⟨sent ++ [.fatalf "Failed to ping: %v" [.err err]], some 1, config, fs⟩
    | .ok resp =>
      if resp.StatusCode = 200 then
        let body := (io.ReadAll resp.Body).1
        ⟨sent ++ [.printf "Ping successful: %s\n" [.str body]], none, config, fs⟩
      else
        ⟨sent ++ [.printf "Ping failed with status code: %d\n" [.int resp.StatusCode]],
          none, config, fs⟩

/-- The `Run` function of `addCmd`.  `marshal` stands for `json.Marshal`, so that the
branch for its failure can be reached. -/
def addCmd (marshal : Blog → Except Error json.Document) (env : Env) (config : Config)
    (fileName : GoString) (id : Int) (title : GoString) (fs : FS) : Result :=
  match os.ReadFile fs fileName with
  | .error err => ⟨[.printf "Failed to read file: %s\n" [.err err]], none, config, fs⟩
  | .ok content =>
    let started : List Event := [.printf "Adding blog post from file: %s\n" [.str fileName]]
    let blog : Blog :=
      { Id := id, Title := title, Content := content, Category := [], Tags := [],
        ViewCount := 0, Author := [] }
    match marshal blog with
    | .error err =>
      ⟨started ++ [.printf "Failed to marshal blog post data: %s\n" [.err err]],
        none, config, fs⟩
    | .ok jsonData =>
      let url :=
        Sprintf "http://%s:%d/blogs/updateOrAdd" [.str config.Host, .int config.Port]
      let sent : List Event := started ++ [.post url (ascii "application/json") jsonData]
      match env.Post url (ascii "application/json") jsonData with
      | .error err =>
        ⟨sent ++ [.printf "Failed to send POST request: %s\n" [.err err]], none, config, fs⟩
      | .ok resp =>
        match io.ReadAll resp.Body with
        | (_, some err) =>
          ⟨sent ++ [.printf "Failed to read response body: %s\n" [.err err]],
            none, config, fs⟩
        | (body, none) =>
          ⟨sent ++ [.printf "Response from server: %s\n" [.str body]], none, config, fs⟩

/-! ## Start-up and dispatch (`main.go` lines 71-81 and 198-203) -/

/-- A command line that cobra accepts for one of the four subcommands; a flag that
was not given is `none`. -/
inductive Command where
  | set (server : Option GoString) (port : Option Int)
  | get
  | ping
  | add (fileName : GoString) (id : Option Int) (title : Option GoString)
deriving DecidableEq, Repr

/-- The `Use` name of the subcommand. -/
def Command.name : Command → String
  | .set _ _ => "set"
  | .get => "get"
  | .ping => "ping"
  | .add _ _ _ => "add"

/-- The start of `init` (lines 72-81): the path of the configuration file and the
loaded configuration, or the `log.Fatalf` call that ends the process. -/
def init (env : Env) (fs : FS) : Except Event (GoString × Config) :=
  match env.UserHomeDir with
  | .error err => .error (.fatalf "Error getting home directory: %v" [.err err])
  | .ok homeDir =>
    let configFile := env.Join homeDir (ascii "blog-cli.yaml")
    match LoadConfig env.yaml fs configFile with
    | .error err => .error (.fatalf "Error loading config: %v" [.err err])
    | .ok config => .ok (configFile, config)

/-- A whole run of the process. -/
structure Run where
  trace : List Event
  /-- Exit status of the process. -/
  status : Nat
  /-- The subcommand whose handler was entered, if any. -/
  handler : Option String
  /-- The in-memory configuration at the end, if one was loaded. -/
  config : Option Config
  fs : FS

/-- One run of the program on an accepted command line.  After a successful start the
flag defaults are the loaded values (lines 98-99) resp. `0` and `""` (lines 192-193),
the captured `err` is `nil`, and the handler of the subcommand runs. -/
def main (env : Env) (cmd : Command) (fs : FS) : Run :=
  match init env fs with
  | .error fatal => ⟨[fatal], 1, none, none, fs⟩
  | .ok (configFile, config) =>
    let r : Result :=
      match cmd with
      | .set server port =>
        setCmd env configFile config (server.getD config.Host) (port.getD config.Port) fs
      | .get => getCmd none config fs
      | .ping => pingCmd env none config fs
      | .add fileName id title =>
        addCmd json.Marshal env config fileName (id.getD 0) (title.getD []) fs
    ⟨r.trace, r.exit.getD 0, some cmd.name, some r.config, r.fs⟩

/-! ## Observations on a run -/

/-- Whether the event is an HTTP request, that is a call of `client.Get` or of
`http.Post` (redirects that the transport follows inside one call are not events). -/
def Event.isRequest : Event → Bool
  | .get _ => true
  | .post _ _ _ => true
  | _ => false

/-- Whether the event reports a failure: a `log.Fatalf` line, or a line printed from a
format that begins with `Failed to`. -/
def Event.isFailure : Event → Bool
  | .fatalf _ _ => true
  | .printf f _ => f.toList.take 10 = "Failed to ".toList
  | _ => false

/-- Whether the event is the line `Response from server: ...` of `add`. -/
def Event.isResponse : Event → Bool
  | .printf f _ => f = "Response from server: %s\n"
  | _ => false

/-- The bodies of the POST requests of a trace. -/
def posted : List Event → List json.Document
  | [] => []
  | .post _ _ body :: rest => body :: posted rest
  | _ :: rest => posted rest

/-- The YAML codec gives back the configuration `c` from the bytes it writes for
it. -/
def Yaml.RoundTrips (yaml : Yaml) (c : Config) : Prop :=
  ∀ data, yaml.Marshal c = .ok data → yaml.Unmarshal data = .ok c

/-- A successful write to `name` is read back unchanged: `name` is a regular file that
can be read. -/
def FS.ReadsBack (fs : FS) (name : GoString) : Prop :=
  ∀ data after, fs.write name data = (none, after) → after = .ok data

/-! ## Reading a JSON object as a `Blog`

The properties of the request body speak of the `Blog` that the body decodes to and of
the members of the object.  The reading below is the one a JSON decoder performs
against the tags of lines 32-38: members are found by name, an absent member leaves
the zero value, a member of the wrong kind is an error. -/

/-- The value of the member called `name`. -/
def json.Document.get? (d : json.Document) (name : String) : Option json.Value :=
  d.members.lookup name

/-- A member read into an `int` field. -/
def json.Document.int (d : json.Document) (name : String) : Option Int :=
  match d.get? name with
  | none => some 0
  | some (.number n) => some n
  | some (.string _) => none

/-- A member read into a `string` field. -/
def json.Document.string (d : json.Document) (name : String) : Option GoString :=
  match d.get? name with
  | none => some []
  | some (.string s) => some s
  | some (.number _) => none

/-- The `Blog` that a JSON object decodes to. -/
def json.decodeBlog (d : json.Document) : Option Blog :=
  match d.int "Id", d.string "Title", d.string "Content", d.string "Category",
    d.string "Tags", d.int "ViewCount", d.string "Author" with
  | some i, some t, some c, some g, some s, some v, some a =>
    some { Id := i, Title := t, Content := c, Category := g, Tags := s,
           ViewCount := v, Author := a }
  | _, _, _, _, _, _, _ => none

/-- Name and kind of every member, in order; the kind is `true` for a number and
`false` for a string. -/
def json.Document.shape (d : json.Document) : List (String × Bool) :=
  d.members.map fun m =>
    (m.1, match m.2 with
          | .number _ => true
          | .string _ => false)

/-! ## A concrete environment

Used to evaluate the definitions on concrete inputs. -/

/-- Content of the example configuration file. -/
def exampleYamlText : Bytes := ascii "host: localhost\nport: 8080\n"

/-- Content the example codec writes for `blog.example.org:9000`. -/
def exampleYamlText2 : Bytes := ascii "host: blog.example.org\nport: 9000\n"

/-- A YAML codec that knows two documents. -/
def exampleYaml : Yaml where
  Marshal c :=
    if c = ⟨ascii "localhost", 8080⟩ then .ok exampleYamlText
    else if c = ⟨ascii "blog.example.org", 9000⟩ then .ok exampleYamlText2
    else .error ⟨ascii "yaml: unsupported value"⟩
  Unmarshal data :=
    if data = exampleYamlText then .ok ⟨ascii "localhost", 8080⟩
    else if data = exampleYamlText2 then .ok ⟨ascii "blog.example.org", 9000⟩
    else .error ⟨ascii "yaml: unmarshal errors"⟩

/-- A file system with a configuration file, a markdown file, a file that is not
valid UTF-8 and a file that is not valid YAML. -/
def exampleFS : FS where
  read p :=
    if p = ascii "/home/u/blog-cli.yaml" then .ok exampleYamlText
    else if p = ascii "post.md" then .ok (ascii "# Hello")
    else if p = ascii "latin1.md" then .ok [0x63, 0x61, 0x66, 0xE9]
    else if p = ascii "/home/v/blog-cli.yaml" then .ok (ascii "host: [")
    else .error ⟨ascii "no such file or directory"⟩
  write _ data := (none, .ok data)

/-- An environment whose server answers `pong` to a ping and `saved` to a post. -/
def exampleEnv : Env where
  UserHomeDir := .ok (ascii "/home/u")
  Join a b := a ++ ascii "/" ++ b
  yaml := exampleYaml
  Get _ := .ok ⟨200, ⟨ascii "pong", none⟩⟩
  Post _ _ _ := .ok ⟨200, ⟨ascii "saved", none⟩⟩

/-- The same environment for a user whose configuration file is malformed. -/
def exampleEnvBad : Env :=
  { exampleEnv with UserHomeDir := .ok (ascii "/home/v") }

/-! ## Recorded behaviour of yaml.v3

The library is not part of the program.  The table below records what it does on the
documents that the refutations use:

* a `Host` that is a single line feed is written in literal style as the header `|4+`
  with no content line, and that document reads back with an empty `Host`;
* the decoder is not strict: an empty document leaves the zero `Config`, a missing key
  leaves the zero value of its field, an unknown key is ignored.

Every other input is answered with an error that stands for "not recorded". -/

/-- What yaml.v3 writes for `Host: "localhost", Port: 8080`. -/
def yamlV3Localhost : Bytes := ascii "host: localhost\nport: 8080\n"

/-- What yaml.v3 writes for `Host: "\n", Port: 8080`. -/
def yamlV3LineFeed : Bytes := ascii "host: |4+\nport: 8080\n"

/-- The recorded answers of yaml.v3. -/
def yamlV3 : Yaml where
  Marshal c :=
    if c = ⟨ascii "localhost", 8080⟩ then .ok yamlV3Localhost
    else if c = ⟨ascii "\n", 8080⟩ then .ok yamlV3LineFeed
    else .error ⟨ascii "not recorded"⟩
  Unmarshal data :=
    if data = yamlV3Localhost then .ok ⟨ascii "localhost", 8080⟩
    else if data = yamlV3LineFeed then .ok ⟨[], 8080⟩
    else if data = [] then .ok ⟨[], 0⟩
    else if data = ascii "host: localhost\n" then .ok ⟨ascii "localhost", 0⟩
    else if data = ascii "host: localhost\nport: 8080\nextra: 1\n" then
      .ok ⟨ascii "localhost", 8080⟩
    else .error ⟨ascii "not recorded"⟩

/-- A file system with a complete configuration file (user `u`), one without the
`port` key (user `w`), an empty one (user `x`), one with an unknown key (user `y`), and
the device `/dev/null`, which accepts every write and reads as empty; the configuration
file of user `z` is a link to `/dev/null`. -/
def recordedFS : FS where
  read p :=
    if p = ascii "/home/u/blog-cli.yaml" then .ok yamlV3Localhost
    else if p = ascii "/home/w/blog-cli.yaml" then .ok (ascii "host: localhost\n")
    else if p = ascii "/home/x/blog-cli.yaml" then .ok []
    else if p = ascii "/home/y/blog-cli.yaml" then
      .ok (ascii "host: localhost\nport: 8080\nextra: 1\n")
    else if p = ascii "/dev/null" then .ok []
    else if p = ascii "/home/z/blog-cli.yaml" then .ok []
    else .error ⟨ascii "no such file or directory"⟩
  write name data :=
    if name = ascii "/dev/null" then (none, .ok [])
    else if name = ascii "/home/z/blog-cli.yaml" then (none, .ok [])
    else (none, .ok data)

/-- The example environment with the recorded codec, for the user with home directory
`home`. -/
def recordedEnv (home : String) : Env :=
  { exampleEnv with UserHomeDir := .ok (ascii home), yaml := yamlV3 }

/-! ## Lemmas -/

theorem coerceFrom_of_validFrom (s : List UInt8) :
    ∀ k, utf8.validFrom k s = true → json.coerceFrom k s = s := by
  induction s with
  | nil => intro k _; cases k <;> rfl
  | cons b rest ih =>
    intro k h
    cases k with
    | succ k =>
      simp only [utf8.validFrom] at h
      simp only [json.coerceFrom, ih k h]
    | zero =>
      simp only [utf8.validFrom] at h
      simp only [json.coerceFrom]
      cases hw : utf8.width (b :: rest) with
      | zero => rw [hw] at h; simp at h
      | succ n =>
        rw [hw] at h
        simp only at h
        simp only [ih n h]

theorem coerce_of_valid (s : GoString) (h : utf8.ValidString s = true) :
    json.coerce s = s :=
  coerceFrom_of_validFrom s 0 h

theorem decodeBlog_Marshal (blog : Blog) :
    ∃ d, json.Marshal blog = .ok d ∧
      json.decodeBlog d = some
        { Id := blog.Id, Title := json.coerce blog.Title,
          Content := json.coerce blog.Content, Category := json.coerce blog.Category,
          Tags := json.coerce blog.Tags, ViewCount := blog.ViewCount,
          Author := json.coerce blog.Author } :=
  ⟨_, rfl, rfl⟩

theorem main_of_init_error (env : Env) (cmd : Command) (fs : FS) (fatal : Event)
    (h : init env fs = .error fatal) :
    (main env cmd fs).trace = [fatal] ∧ (main env cmd fs).status = 1 ∧
    (main env cmd fs).handler = none ∧ (main env cmd fs).config = none := by
  simp [main, h]

theorem main_set (env : Env) (fs : FS) (file : GoString) (cfg : Config)
    (server : Option GoString) (port : Option Int) (h : init env fs = .ok (file, cfg)) :
    (main env (.set server port) fs).trace =
        (setCmd env file cfg (server.getD cfg.Host) (port.getD cfg.Port) fs).trace ∧
    (main env (.set server port) fs).status =
        (setCmd env file cfg (server.getD cfg.Host) (port.getD cfg.Port) fs).exit.getD 0 ∧
    (main env (.set server port) fs).config =
        some (setCmd env file cfg (server.getD cfg.Host) (port.getD cfg.Port) fs).config ∧
    (main env (.set server port) fs).fs =
        (setCmd env file cfg (server.getD cfg.Host) (port.getD cfg.Port) fs).fs := by
  simp [main, h]

theorem main_add (env : Env) (fs : FS) (file : GoString) (cfg : Config)
    (fileName : GoString) (id : Option Int) (title : Option GoString)
    (h : init env fs = .ok (file, cfg)) :
    (main env (.add fileName id title) fs).trace =
        (addCmd json.Marshal env cfg fileName (id.getD 0) (title.getD []) fs).trace ∧
    (main env (.add fileName id title) fs).status =
        (addCmd json.Marshal env cfg fileName (id.getD 0) (title.getD []) fs).exit.getD 0 := by
  simp [main, h]

theorem main_ping (env : Env) (fs : FS) (file : GoString) (cfg : Config)
    (h : init env fs = .ok (file, cfg)) :
    (main env .ping fs).trace = (pingCmd env none cfg fs).trace ∧
    (main env .ping fs).status = (pingCmd env none cfg fs).exit.getD 0 := by
  simp [main, h]

theorem SaveConfig_ok (yaml : Yaml) (fs fs' : FS) (file : GoString) (c : Config)
    (h : SaveConfig yaml fs file c = .ok fs') :
    ∃ data, yaml.Marshal c = .ok data ∧ (fs.write file data).1 = none ∧
      fs'.read file = (fs.write file data).2 ∧ fs'.write = fs.write := by
  unfold SaveConfig at h
  cases hm : yaml.Marshal c with
  | error e => rw [hm] at h; simp at h
  | ok data =>
    rw [hm] at h
    simp only [os.WriteFile] at h
    cases hw : (fs.write file data).1 with
    | some e => rw [hw] at h; simp at h
    | none =>
      rw [hw] at h
      simp only [Except.ok.injEq] at h
      subst h
      exact ⟨data, rfl, hw, by simp, rfl⟩

theorem LoadConfig_after_save (yaml : Yaml) (fs fs' : FS) (file : GoString) (c : Config)
    (hyaml : yaml.RoundTrips c) (hfs : fs.ReadsBack file)
    (hsave : SaveConfig yaml fs file c = .ok fs') :
    LoadConfig yaml fs' file = .ok c := by
  obtain ⟨data, hm, hw, hr, _⟩ := SaveConfig_ok yaml fs fs' file c hsave
  have hafter : (fs.write file data).2 = .ok data :=
    hfs data (fs.write file data).2 (by rw [← hw])
  simp [LoadConfig, os.ReadFile, hr, hafter, hyaml data hm]

/-! ## Properties of the specification -/

/-- C1 (as stated, refuted). With the recorded answers of yaml.v3, saving the
configuration with `Host = "\n"` to `cfg.yaml` succeeds and loading the file gives the
empty `Host`; and saving `localhost:8080` to `/dev/null` succeeds and loading it gives
the zero configuration. -/
theorem config_round_trip_fails :
    (∃ fs', SaveConfig yamlV3 recordedFS (ascii "cfg.yaml") ⟨ascii "\n", 8080⟩ = .ok fs' ∧
      LoadConfig yamlV3 fs' (ascii "cfg.yaml") = .ok ⟨[], 8080⟩ ∧
      ¬ ∃ c', LoadConfig yamlV3 fs' (ascii "cfg.yaml") = .ok c' ∧ c'.Host = ascii "\n") ∧
    (∃ fs', SaveConfig yamlV3 recordedFS (ascii "/dev/null") ⟨ascii "localhost", 8080⟩ =
        .ok fs' ∧
      LoadConfig yamlV3 fs' (ascii "/dev/null") = .ok ⟨[], 0⟩ ∧
      ¬ ∃ c', LoadConfig yamlV3 fs' (ascii "/dev/null") = .ok c' ∧
        c'.Host = ascii "localhost") := by
  refine ⟨⟨_, rfl, by decide, ?_⟩, ⟨_, rfl, by decide, ?_⟩⟩
  · rintro ⟨c', hc, hh⟩
    have h0 : LoadConfig yamlV3
        ⟨fun p => if p = ascii "cfg.yaml" then
            (recordedFS.write (ascii "cfg.yaml") yamlV3LineFeed).2 else recordedFS.read p,
          recordedFS.write⟩ (ascii "cfg.yaml") = .ok ⟨[], 8080⟩ := by decide
    rw [h0] at hc
    simp only [Except.ok.injEq] at hc
    subst hc
    revert hh
    decide
  · rintro ⟨c', hc, hh⟩
    have h0 : LoadConfig yamlV3
        ⟨fun p => if p = ascii "/dev/null" then
            (recordedFS.write (ascii "/dev/null") yamlV3Localhost).2 else recordedFS.read p,
          recordedFS.write⟩ (ascii "/dev/null") = .ok ⟨[], 0⟩ := by decide
    rw [h0] at hc
    simp only [Except.ok.injEq] at hc
    subst hc
    revert hh
    decide

/-- C1 (amended). For every configuration `c` that the YAML codec reads back from the
bytes it writes for it, and every path at which a successful write is read back
unchanged: whenever `SaveConfig` succeeds, `LoadConfig` on the same path succeeds with
`Host` and `Port` equal to those of `c`. -/
theorem config_round_trip (yaml : Yaml) (fs fs' : FS) (file : GoString) (c : Config)
    (hyaml : yaml.RoundTrips c) (hfs : fs.ReadsBack file)
    (hsave : SaveConfig yaml fs file c = .ok fs') :
    ∃ c', LoadConfig yaml fs' file = .ok c' ∧ c'.Host = c.Host ∧ c'.Port = c.Port :=
  ⟨c, LoadConfig_after_save yaml fs fs' file c hyaml hfs hsave, rfl, rfl⟩

/-- Instance of C1 (amended): the recorded codec, saving `localhost:8080` to
`cfg.yaml`. -/
theorem config_round_trip_witness :
    yamlV3.RoundTrips ⟨ascii "localhost", 8080⟩ ∧ recordedFS.ReadsBack (ascii "cfg.yaml") ∧
    ∃ fs', SaveConfig yamlV3 recordedFS (ascii "cfg.yaml") ⟨ascii "localhost", 8080⟩ =
        .ok fs' ∧
      ∃ c', LoadConfig yamlV3 fs' (ascii "cfg.yaml") = .ok c' ∧
        c'.Host = ascii "localhost" ∧ c'.Port = 8080 :=
  have hyaml : yamlV3.RoundTrips ⟨ascii "localhost", 8080⟩ := by
    intro data h
    have hd : data = yamlV3Localhost := by
      have h0 : yamlV3.Marshal ⟨ascii "localhost", 8080⟩ = .ok yamlV3Localhost := by decide
      rw [h0] at h
      exact (Except.ok.inj h).symm
    subst hd
    decide
  have hfs : recordedFS.ReadsBack (ascii "cfg.yaml") := by
    intro data after h
    have h0 : recordedFS.write (ascii "cfg.yaml") data = (none, .ok data) := by
      simp only [recordedFS]
      rw [if_neg (by decide), if_neg (by decide)]
    rw [h0] at h
    exact (Prod.mk.inj h).2.symm
  ⟨hyaml, hfs, _, rfl,
    config_round_trip yamlV3 recordedFS _ (ascii "cfg.yaml") ⟨ascii "localhost", 8080⟩
      hyaml hfs rfl⟩

/-- C2 (as stated, refuted). With the recorded answers of yaml.v3,
`set --server "\n" --port 8080` saves and ends with status 0, and the following `get`
prints an empty `Host`; and for the user whose configuration file is a link to
`/dev/null`, `set --server localhost --port 8080` ends with status 0 and the following
`get` prints the zero configuration. -/
theorem set_then_get_fails :
    (main (recordedEnv "/home/z") (.set (some (ascii "localhost")) (some 8080))
      recordedFS).status = 0 ∧
    (main (recordedEnv "/home/z") .get
        (main (recordedEnv "/home/z") (.set (some (ascii "localhost")) (some 8080))
          recordedFS).fs).trace =
      [.printf "Current configuration:\nHost: %s\nPort: %d\n" [.str [], .int 0]] ∧
    (main (recordedEnv "/home/u") (.set (some (ascii "\n")) (some 8080)) recordedFS).status
      = 0 ∧
    (main (recordedEnv "/home/u") (.set (some (ascii "\n")) (some 8080)) recordedFS).config
      = some ⟨ascii "\n", 8080⟩ ∧
    (main (recordedEnv "/home/u") .get
        (main (recordedEnv "/home/u") (.set (some (ascii "\n")) (some 8080))
          recordedFS).fs).trace =
      [.printf "Current configuration:\nHost: %s\nPort: %d\n" [.str [], .int 8080]] ∧
    (main (recordedEnv "/home/u") .get
        (main (recordedEnv "/home/u") (.set (some (ascii "\n")) (some 8080))
          recordedFS).fs).trace ≠
      [.printf "Current configuration:\nHost: %s\nPort: %d\n"
        [.str (ascii "\n"), .int 8080]] := by
  refine ⟨by decide, by decide, by decide, by decide, by decide, by decide⟩

/-- C2 (amended). When `set --server h --port p` runs and its save succeeds (the run
ends with status 0), the in-memory configuration is `(h, p)`; and when the YAML codec
reads `(h, p)` back from the bytes it writes for it and a successful write to the
configuration file is read back unchanged, a following `get`, which reloads the file at
start-up, prints `Host: h` and `Port: p`. -/
theorem set_then_get (env : Env) (fs : FS) (h : GoString) (p : Int)
    (hset : (main env (.set (some h) (some p)) fs).status = 0) :
    (main env (.set (some h) (some p)) fs).handler = some "set" ∧
    (main env (.set (some h) (some p)) fs).config = some ⟨h, p⟩ ∧
    (env.yaml.RoundTrips ⟨h, p⟩ →
      (∀ homeDir, env.UserHomeDir = .ok homeDir →
        fs.ReadsBack (env.Join homeDir (ascii "blog-cli.yaml"))) →
      (main env .get (main env (.set (some h) (some p)) fs).fs).trace =
        [.printf "Current configuration:\nHost: %s\nPort: %d\n" [.str h, .int p]] ∧
      (main env .get (main env (.set (some h) (some p)) fs).fs).status = 0 ∧
      ((main env .get (main env (.set (some h) (some p)) fs).fs).trace.map Event.text =
        [ascii "Current configuration:\nHost: " ++ h ++ ascii "\nPort: " ++ decimal p ++
          ascii "\n"])) := by
  cases hi : init env fs with
  | error fatal =>
    have := (main_of_init_error env (.set (some h) (some p)) fs fatal hi).2.1
    omega
  | ok fc =>
    obtain ⟨file, cfg⟩ := fc
    have hhome : ∃ homeDir, env.UserHomeDir = .ok homeDir ∧
        file = env.Join homeDir (ascii "blog-cli.yaml") := by
      unfold init at hi
      cases hu : env.UserHomeDir with
      | error e => rw [hu] at hi; simp at hi
      | ok homeDir =>
        rw [hu] at hi
        simp only at hi
        cases hl : LoadConfig env.yaml fs (env.Join homeDir (ascii "blog-cli.yaml")) with
        | error e => rw [hl] at hi; simp at hi
        | ok c =>
          rw [hl] at hi
          simp only [Except.ok.injEq, Prod.mk.injEq] at hi
          exact ⟨homeDir, rfl, hi.1.symm⟩
    obtain ⟨homeDir, hu, hfile⟩ := hhome
    cases hs : SaveConfig env.yaml fs file ⟨h, p⟩ with
    | error e =>
      have : (main env (.set (some h) (some p)) fs).status = 1 := by
        simp [main, hi, setCmd, hs]
      omega
    | ok fs' =>
      have hfs : (main env (.set (some h) (some p)) fs).fs = fs' := by
        simp [main, hi, setCmd, hs]
      rw [hfs]
      refine ⟨?_, ?_, ?_⟩
      · simp [main, hi, Command.name]
      · simp [main, hi, setCmd, hs]
      · intro hyaml hback
        have hload := LoadConfig_after_save env.yaml fs fs' file ⟨h, p⟩ hyaml
          (hfile ▸ hback homeDir hu) hs
        have hinit' : init env fs' = .ok (file, ⟨h, p⟩) := by
          simp [init, hu, ← hfile, hload]
        refine ⟨?_, ?_, ?_⟩
        · simp [main, hinit', getCmd]
        · simp [main, hinit', getCmd]
        · simp [main, hinit', getCmd, Event.text, Sprintf, expand, Arg.text, ascii]

/-- Instance of C2 (amended): `set --server blog.example.org --port 9000`, then
`get`. -/
theorem set_then_get_witness :
    (main exampleEnv (.set (some (ascii "blog.example.org")) (some 9000)) exampleFS).status
      = 0 ∧
    (main exampleEnv (.set (some (ascii "blog.example.org")) (some 9000)) exampleFS).config
      = some ⟨ascii "blog.example.org", 9000⟩ ∧
    (main exampleEnv .get
        (main exampleEnv (.set (some (ascii "blog.example.org")) (some 9000)) exampleFS).fs).trace =
      [.printf "Current configuration:\nHost: %s\nPort: %d\n"
        [.str (ascii "blog.example.org"), .int 9000]] :=
  ⟨by decide,
    (set_then_get exampleEnv exampleFS (ascii "blog.example.org") 9000 (by decide)).2.1,
    ((set_then_get exampleEnv exampleFS (ascii "blog.example.org") 9000 (by decide)).2.2
      (by
        intro data h
        have h0 : exampleEnv.yaml.Marshal ⟨ascii "blog.example.org", 9000⟩ =
            .ok exampleYamlText2 := by decide
        rw [h0] at h
        have hd : data = exampleYamlText2 := (Except.ok.inj h).symm
        subst hd
        decide)
      (by
        intro homeDir _ data after h
        exact (Prod.mk.inj h).2.symm)).1⟩

/-- C3 (as stated, refuted). For the file `latin1.md`, whose last byte `0xE9` is not
valid UTF-8, the body that `add` posts decodes to a `Blog` whose `Content` differs from
the file content. -/
theorem add_content_not_verbatim :
    os.ReadFile exampleFS (ascii "latin1.md") = .ok [0x63, 0x61, 0x66, 0xE9] ∧
    ∃ d blog,
      posted (main exampleEnv (.add (ascii "latin1.md") (some 7) (some (ascii "Hi")))
        exampleFS).trace = [d] ∧
      json.decodeBlog d = some blog ∧
      blog.Content = [0x63, 0x61, 0x66, 0xEF, 0xBF, 0xBD] ∧
      blog.Content ≠ [0x63, 0x61, 0x66, 0xE9] := by
  refine ⟨by decide, ?_⟩
  refine ⟨⟨[("Id", .number 7), ("Title", .string (ascii "Hi")),
    ("Content", .string [0x63, 0x61, 0x66, 0xEF, 0xBF, 0xBD]), ("Category", .string []),
    ("Tags", .string []), ("ViewCount", .number 0), ("Author", .string [])]⟩,
    ⟨7, ascii "Hi", [0x63, 0x61, 0x66, 0xEF, 0xBF, 0xBD], [], [], 0, []⟩, ?_, ?_, ?_, ?_⟩
  · decide
  · decide
  · rfl
  · decide

/-- C3 (amended). For every file content `b`, id flag `i` and title flag `t`, `add`
posts exactly one body, and it decodes to the `Blog` with `Id = i`, `Category = ""`,
`Tags = ""`, `ViewCount = 0`, `Author = ""`, and with `Content` and `Title` equal to `b`
and `t` after every byte that is not part of a valid UTF-8 encoding has been replaced by
U+FFFD; so `Content` is `b` verbatim when `b` is valid UTF-8, and `Title` is `t` when `t`
is. -/
theorem add_posts_blog (env : Env) (fs : FS) (file : GoString) (cfg : Config)
    (fileName : GoString) (i : Int) (t b : GoString)
    (hinit : init env fs = .ok (file, cfg))
    (hread : os.ReadFile fs fileName = .ok b) :
    (∃ d, posted (main env (.add fileName (some i) (some t)) fs).trace = [d] ∧
      json.decodeBlog d = some
        { Id := i, Title := json.coerce t, Content := json.coerce b, Category := [],
          Tags := [], ViewCount := 0, Author := [] }) ∧
    (utf8.ValidString b = true → json.coerce b = b) ∧
    (utf8.ValidString t = true → json.coerce t = t) ∧
    (utf8.ValidString b = true → utf8.ValidString t = true →
      ∃ d, posted (main env (.add fileName (some i) (some t)) fs).trace = [d] ∧
        json.decodeBlog d = some
          { Id := i, Title := t, Content := b, Category := [], Tags := [],
            ViewCount := 0, Author := [] }) := by
  have key : ∃ d, posted (main env (.add fileName (some i) (some t)) fs).trace = [d] ∧
      json.decodeBlog d = some
        { Id := i, Title := json.coerce t, Content := json.coerce b, Category := [],
          Tags := [], ViewCount := 0, Author := [] } := ?_
  · refine ⟨key, coerce_of_valid b, coerce_of_valid t, ?_⟩
    intro hb ht
    rw [coerce_of_valid b hb, coerce_of_valid t ht] at key
    exact key
  rw [(main_add env fs file cfg fileName (some i) (some t) hinit).1]
  refine ⟨⟨[("Id", .number i), ("Title", .string (json.coerce t)),
    ("Content", .string (json.coerce b)), ("Category", .string []),
    ("Tags", .string []), ("ViewCount", .number 0), ("Author", .string [])]⟩, ?_, rfl⟩
  simp only [addCmd, hread, json.Marshal, Option.getD_some]
  cases hp : env.Post _ _ _ with
  | error e => rfl
  | ok resp =>
    simp only
    cases hb : io.ReadAll resp.Body with
    | mk body err =>
      cases err <;> rfl

/-- Instance of C3 (amended): `add post.md --id 7 --title Hi`. -/
theorem add_posts_blog_witness :
    (∃ d, posted (main exampleEnv (.add (ascii "post.md") (some 7) (some (ascii "Hi")))
        exampleFS).trace = [d] ∧
      json.decodeBlog d = some
        { Id := 7, Title := json.coerce (ascii "Hi"), Content := json.coerce (ascii "# Hello"),
          Category := [], Tags := [], ViewCount := 0, Author := [] }) ∧
    utf8.ValidString (ascii "# Hello") = true ∧ utf8.ValidString (ascii "Hi") = true ∧
    ∃ d, posted (main exampleEnv (.add (ascii "post.md") (some 7) (some (ascii "Hi")))
        exampleFS).trace = [d] ∧
      json.decodeBlog d = some
        { Id := 7, Title := ascii "Hi", Content := ascii "# Hello",
          Category := [], Tags := [], ViewCount := 0, Author := [] } :=
  ⟨(add_posts_blog exampleEnv exampleFS (ascii "/home/u/blog-cli.yaml")
      ⟨ascii "localhost", 8080⟩ (ascii "post.md") 7 (ascii "Hi") (ascii "# Hello")
      (by decide) (by decide)).1,
    by decide, by decide,
    (add_posts_blog exampleEnv exampleFS (ascii "/home/u/blog-cli.yaml")
      ⟨ascii "localhost", 8080⟩ (ascii "post.md") 7 (ascii "Hi") (ascii "# Hello")
      (by decide) (by decide)).2.2.2 (by decide) (by decide)⟩

/-- C4. When the read of the named file fails, `add` prints the one line
`Failed to read file: <error>` and returns: whatever the marshaller and the transport
are, the handler's trace is that single line, it holds no request, and the run ends with
status 0. -/
theorem add_read_failure (env : Env) (fs : FS) (file : GoString) (cfg : Config)
    (fileName : GoString) (id : Option Int) (title : Option GoString) (e : Error)
    (hinit : init env fs = .ok (file, cfg))
    (hread : os.ReadFile fs fileName = .error e) :
    (∀ marshal env' i t,
      (addCmd marshal env' cfg fileName i t fs).trace =
        [.printf "Failed to read file: %s\n" [.err e]] ∧
      (addCmd marshal env' cfg fileName i t fs).exit = none) ∧
    (main env (.add fileName id title) fs).trace =
      [.printf "Failed to read file: %s\n" [.err e]] ∧
    (main env (.add fileName id title) fs).trace.filter Event.isRequest = [] ∧
    posted (main env (.add fileName id title) fs).trace = [] ∧
    (main env (.add fileName id title) fs).status = 0 := by
  have hh : ∀ marshal env' i t,
      (addCmd marshal env' cfg fileName i t fs).trace =
        [.printf "Failed to read file: %s\n" [.err e]] ∧
      (addCmd marshal env' cfg fileName i t fs).exit = none := by
    intro marshal env' i t
    simp [addCmd, hread]
  obtain ⟨ht, hs⟩ := main_add env fs file cfg fileName id title hinit
  rw [ht, hs, (hh json.Marshal env (id.getD 0) (title.getD [])).1,
    (hh json.Marshal env (id.getD 0) (title.getD [])).2]
  exact ⟨hh, rfl, rfl, rfl, rfl⟩

/-- Instance of C4: `add missing.md`. -/
theorem add_read_failure_witness :
    (main exampleEnv (.add (ascii "missing.md") none none) exampleFS).trace =
      [.printf "Failed to read file: %s\n" [.err ⟨ascii "no such file or directory"⟩]] :=
  (add_read_failure exampleEnv exampleFS (ascii "/home/u/blog-cli.yaml")
    ⟨ascii "localhost", 8080⟩ (ascii "missing.md") none none
    ⟨ascii "no such file or directory"⟩ (by decide) (by decide)).2.1

/-- C5. For every response that the GET of `ping` receives: with status 200 the
command prints the body (the bytes `io.ReadAll` delivers), with any other status it
prints that status code and nothing of the body; in both cases the trace holds exactly
one request, the GET, nothing follows the printed line, and the handler returns. -/
theorem ping_response (env : Env) (config : Config) (fs : FS) (resp : Response)
    (hget : env.Get (Sprintf "http://%s:%d/ping" [.str config.Host, .int config.Port]) =
      .ok resp) :
    (resp.StatusCode = 200 →
      (pingCmd env none config fs).trace =
        [.printf "Pinging %s...\n"
            [.str (Sprintf "http://%s:%d/ping" [.str config.Host, .int config.Port])],
          .get (Sprintf "http://%s:%d/ping" [.str config.Host, .int config.Port]),
          .printf "Ping successful: %s\n" [.str resp.Body.data]]) ∧
    (resp.StatusCode ≠ 200 →
      (pingCmd env none config fs).trace =
        [.printf "Pinging %s...\n"
            [.str (Sprintf "http://%s:%d/ping" [.str config.Host, .int config.Port])],
          .get (Sprintf "http://%s:%d/ping" [.str config.Host, .int config.Port]),
          .printf "Ping failed with status code: %d\n" [.int resp.StatusCode]]) ∧
    (pingCmd env none config fs).trace.filter Event.isRequest =
      [.get (Sprintf "http://%s:%d/ping" [.str config.Host, .int config.Port])] ∧
    (pingCmd env none config fs).exit = none := by
  by_cases h200 : resp.StatusCode = 200
  · simp [pingCmd, hget, h200, io.ReadAll, Event.isRequest]
  · simp [pingCmd, hget, h200, Event.isRequest]

/-- Instance of C5: the example server answers 200 with body `pong`. -/
theorem ping_response_witness :
    (pingCmd exampleEnv none ⟨ascii "localhost", 8080⟩ exampleFS).trace =
      [.printf "Pinging %s...\n" [.str (ascii "http://localhost:8080/ping")],
        .get (ascii "http://localhost:8080/ping"),
        .printf "Ping successful: %s\n" [.str (ascii "pong")]] :=
  (ping_response exampleEnv ⟨ascii "localhost", 8080⟩ exampleFS ⟨200, ⟨ascii "pong", none⟩⟩
    (by decide)).1 (by decide)

/-- C6 (as stated, refuted). With the recorded answers of yaml.v3, a configuration
file without the `port` key, an empty one and one with an unknown key are all loaded:
the `get` handler runs, prints the loaded values and the run ends with status 0. -/
theorem lenient_config_is_loaded :
    ((main (recordedEnv "/home/w") .get recordedFS).status = 0 ∧
      (main (recordedEnv "/home/w") .get recordedFS).handler = some "get" ∧
      (main (recordedEnv "/home/w") .get recordedFS).trace =
        [.printf "Current configuration:\nHost: %s\nPort: %d\n"
          [.str (ascii "localhost"), .int 0]]) ∧
    ((main (recordedEnv "/home/x") .get recordedFS).status = 0 ∧
      (main (recordedEnv "/home/x") .get recordedFS).handler = some "get" ∧
      (main (recordedEnv "/home/x") .get recordedFS).trace =
        [.printf "Current configuration:\nHost: %s\nPort: %d\n" [.str [], .int 0]]) ∧
    ((main (recordedEnv "/home/y") .get recordedFS).status = 0 ∧
      (main (recordedEnv "/home/y") .get recordedFS).handler = some "get" ∧
      (main (recordedEnv "/home/y") .get recordedFS).trace =
        [.printf "Current configuration:\nHost: %s\nPort: %d\n"
          [.str (ascii "localhost"), .int 8080]]) := by
  refine ⟨⟨by decide, by decide, by decide⟩, ⟨by decide, by decide, by decide⟩,
    ⟨by decide, by decide, by decide⟩⟩

/-- C6 (amended). When the configuration file cannot be read (absent or unreadable) or
`yaml.Unmarshal` rejects its content with an error, `LoadConfig` returns that error, and
the run of every subcommand ends with exit status 1 after the single line
`Error loading config: ...`, with no handler entered, no configuration in memory and the
file system untouched.  Content that `yaml.Unmarshal` accepts is loaded, and the handler
of the subcommand is entered. -/
theorem bad_config_is_fatal (env : Env) (fs : FS) (cmd : Command) (homeDir : GoString)
    (hhome : env.UserHomeDir = .ok homeDir) :
    (∀ e,
      (os.ReadFile fs (env.Join homeDir (ascii "blog-cli.yaml")) = .error e ∨
        ∃ data, os.ReadFile fs (env.Join homeDir (ascii "blog-cli.yaml")) = .ok data ∧
          env.yaml.Unmarshal data = .error e) →
      LoadConfig env.yaml fs (env.Join homeDir (ascii "blog-cli.yaml")) = .error e ∧
      (main env cmd fs).status = 1 ∧
      (main env cmd fs).status ≠ 0 ∧
      (main env cmd fs).handler = none ∧
      (main env cmd fs).trace = [.fatalf "Error loading config: %v" [.err e]] ∧
      (main env cmd fs).trace.filter Event.isRequest = [] ∧
      (main env cmd fs).config = none ∧
      (main env cmd fs).fs.read = fs.read) ∧
    (∀ data c,
      os.ReadFile fs (env.Join homeDir (ascii "blog-cli.yaml")) = .ok data →
      env.yaml.Unmarshal data = .ok c →
      LoadConfig env.yaml fs (env.Join homeDir (ascii "blog-cli.yaml")) = .ok c ∧
      (main env cmd fs).handler = some cmd.name) := by
  constructor
  · intro e hbad
    have hload :
        LoadConfig env.yaml fs (env.Join homeDir (ascii "blog-cli.yaml")) = .error e := by
      rcases hbad with h | ⟨data, h, hu⟩
      · simp [LoadConfig, h]
      · simp [LoadConfig, h, hu]
    have hinit : init env fs = .error (.fatalf "Error loading config: %v" [.err e]) := by
      simp [init, hhome, hload]
    obtain ⟨h1, h2, h3, h4⟩ := main_of_init_error env cmd fs _ hinit
    refine ⟨hload, h2, by omega, h3, h1, by rw [h1]; rfl, h4, ?_⟩
    simp [main, hinit]
  · intro data c hread hdec
    have hload :
        LoadConfig env.yaml fs (env.Join homeDir (ascii "blog-cli.yaml")) = .ok c := by
      simp [LoadConfig, hread, hdec]
    refine ⟨hload, ?_⟩
    simp [main, init, hhome, hload]

/-- Instance of C6 (amended): the configuration file `host: [` is rejected by the
decoder. -/
theorem bad_config_is_fatal_witness :
    (main exampleEnvBad .ping exampleFS).status = 1 :=
  ((bad_config_is_fatal exampleEnvBad exampleFS .ping (ascii "/home/v") (by rfl)).1
    ⟨ascii "yaml: unmarshal errors"⟩
    (Or.inr ⟨ascii "host: [", by decide, by decide⟩)).2.1

theorem Sprintf_ping (host : GoString) (port : Int) :
    Sprintf "http://%s:%d/ping" [.str host, .int port] =
      ascii "http://" ++ host ++ ascii ":" ++ decimal port ++ ascii "/ping" := by
  simp [Sprintf, expand, Arg.text, ascii]

theorem Sprintf_updateOrAdd (host : GoString) (port : Int) :
    Sprintf "http://%s:%d/blogs/updateOrAdd" [.str host, .int port] =
      ascii "http://" ++ host ++ ascii ":" ++ decimal port ++ ascii "/blogs/updateOrAdd" := by
  simp [Sprintf, expand, Arg.text, ascii]

theorem addCmd_requests (marshal : Blog → Except Error json.Document) (env : Env)
    (config : Config) (fileName : GoString) (id : Int) (title : GoString) (fs : FS) :
    (addCmd marshal env config fileName id title fs).trace.filter Event.isRequest = [] ∨
    ∃ content body,
      os.ReadFile fs fileName = .ok content ∧
      marshal ⟨id, title, content, [], [], 0, []⟩ = .ok body ∧
      (addCmd marshal env config fileName id title fs).trace.filter Event.isRequest =
        [.post (Sprintf "http://%s:%d/blogs/updateOrAdd" [.str config.Host, .int config.Port])
          (ascii "application/json") body] := by
  cases hr : os.ReadFile fs fileName with
  | error e => left; simp [addCmd, hr, Event.isRequest]
  | ok content =>
    cases hm : marshal ⟨id, title, content, [], [], 0, []⟩ with
    | error e => left; simp [addCmd, hr, hm, Event.isRequest]
    | ok body =>
      right
      refine ⟨content, body, rfl, hm, ?_⟩
      simp only [addCmd, hr, hm]
      cases hp : env.Post _ _ _ with
      | error e => simp [Event.isRequest]
      | ok resp =>
        simp only
        cases hb : io.ReadAll resp.Body with
        | mk data err => cases err <;> simp [Event.isRequest]

/-- C7. For every loaded configuration `(host, port)`: the one request of `ping` is a
GET of `"http://" ++ host ++ ":" ++ decimal(port) ++ "/ping"`, and every request of
`add` is a POST to `"http://" ++ host ++ ":" ++ decimal(port) ++ "/blogs/updateOrAdd"`
(and `add` makes that request whenever the file can be read); nothing but the
configuration enters the URL. -/
theorem request_url (env : Env) (fs : FS) (file : GoString) (cfg : Config)
    (hinit : init env fs = .ok (file, cfg)) :
    (main env .ping fs).trace.filter Event.isRequest =
      [.get (ascii "http://" ++ cfg.Host ++ ascii ":" ++ decimal cfg.Port ++ ascii "/ping")] ∧
    (∀ fileName id title, ∀ ev ∈ (main env (.add fileName id title) fs).trace,
      ev.isRequest = true →
      ∃ body, ev = .post
        (ascii "http://" ++ cfg.Host ++ ascii ":" ++ decimal cfg.Port ++
          ascii "/blogs/updateOrAdd") (ascii "application/json") body) ∧
    (∀ fileName id title content, os.ReadFile fs fileName = .ok content →
      ∃ body, (main env (.add fileName id title) fs).trace.filter Event.isRequest =
        [.post (ascii "http://" ++ cfg.Host ++ ascii ":" ++ decimal cfg.Port ++
          ascii "/blogs/updateOrAdd") (ascii "application/json") body]) := by
  refine ⟨?_, ?_, ?_⟩
  · rw [(main_ping env fs file cfg hinit).1, ← Sprintf_ping]
    simp only [pingCmd]
    cases hg : env.Get _ with
    | error e => simp [Event.isRequest]
    | ok resp =>
      by_cases h200 : resp.StatusCode = 200 <;> simp [h200, Event.isRequest]
  · intro fileName id title ev hev hreq
    rw [(main_add env fs file cfg fileName id title hinit).1] at hev
    have hmem : ev ∈ (addCmd json.Marshal env cfg fileName (id.getD 0) (title.getD [])
        fs).trace.filter Event.isRequest := List.mem_filter.mpr ⟨hev, hreq⟩
    rcases addCmd_requests json.Marshal env cfg fileName (id.getD 0) (title.getD []) fs with
      h | ⟨content, body, _, _, h⟩
    · rw [h] at hmem; simp at hmem
    · rw [h, Sprintf_updateOrAdd] at hmem
      exact ⟨body, by simpa using hmem⟩
  · intro fileName id title content hread
    rw [(main_add env fs file cfg fileName id title hinit).1]
    rcases addCmd_requests json.Marshal env cfg fileName (id.getD 0) (title.getD []) fs with
      h | ⟨_, body, _, _, h⟩
    · exfalso
      simp only [addCmd, hread, json.Marshal] at h
      revert h
      cases hp : env.Post _ _ _ with
      | error e => simp [Event.isRequest]
      | ok resp =>
        simp only
        cases hb : io.ReadAll resp.Body with
        | mk data err => cases err <;> simp [Event.isRequest]
    · exact ⟨body, by rw [h, Sprintf_updateOrAdd]⟩

/-- Instance of C7: the configuration `localhost:8080`. -/
theorem request_url_witness :
    (main exampleEnv .ping exampleFS).trace.filter Event.isRequest =
      [.get (ascii "http://" ++ ascii "localhost" ++ ascii ":" ++ decimal 8080 ++
        ascii "/ping")] :=
  (request_url exampleEnv exampleFS (ascii "/home/u/blog-cli.yaml")
    ⟨ascii "localhost", 8080⟩ (by decide)).1

/-- C8. The `add` handler never ends the process: for every outcome of the file read,
the marshalling, the POST and the read of the response body it returns, its trace holds
at most one failure message, a `Response from server` line only when all four steps
succeeded, and in that case the line carries the body that was read. -/
theorem add_never_aborts (marshal : Blog → Except Error json.Document) (env : Env)
    (config : Config) (fileName : GoString) (id : Int) (title : GoString) (fs : FS) :
    (addCmd marshal env config fileName id title fs).exit = none ∧
    ((addCmd marshal env config fileName id title fs).trace.filter Event.isFailure).length
      ≤ 1 ∧
    (∀ ev ∈ (addCmd marshal env config fileName id title fs).trace, ev.isResponse = true →
      ∃ content jsonData resp body,
        os.ReadFile fs fileName = .ok content ∧
        marshal ⟨id, title, content, [], [], 0, []⟩ = .ok jsonData ∧
        env.Post
          (Sprintf "http://%s:%d/blogs/updateOrAdd" [.str config.Host, .int config.Port])
          (ascii "application/json") jsonData = .ok resp ∧
        io.ReadAll resp.Body = (body, none) ∧
        ev = .printf "Response from server: %s\n" [.str body]) ∧
    (∀ content jsonData resp body,
        os.ReadFile fs fileName = .ok content →
        marshal ⟨id, title, content, [], [], 0, []⟩ = .ok jsonData →
        env.Post
          (Sprintf "http://%s:%d/blogs/updateOrAdd" [.str config.Host, .int config.Port])
          (ascii "application/json") jsonData = .ok resp →
        io.ReadAll resp.Body = (body, none) →
        Event.printf "Response from server: %s\n" [.str body] ∈
          (addCmd marshal env config fileName id title fs).trace ∧
        (addCmd marshal env config fileName id title fs).trace.filter Event.isFailure = [])
    := by
  cases hr : os.ReadFile fs fileName with
  | error e =>
    refine ⟨by simp [addCmd, hr], by simp [addCmd, hr, Event.isFailure], ?_, ?_⟩
    · intro ev hev hresp
      simp [addCmd, hr] at hev
      subst hev
      simp [Event.isResponse] at hresp
    · intro content jsonData resp body h
      simp at h
  | ok content =>
    cases hm : marshal ⟨id, title, content, [], [], 0, []⟩ with
    | error e =>
      refine ⟨by simp [addCmd, hr, hm], by simp [addCmd, hr, hm, Event.isFailure], ?_, ?_⟩
      · intro ev hev hresp
        simp [addCmd, hr, hm] at hev
        rcases hev with hev | hev <;> subst hev <;> simp [Event.isResponse] at hresp
      · intro content2 jsonData resp body h1 h2
        simp only [Except.ok.injEq] at h1
        subst h1
        rw [hm] at h2
        simp at h2
    | ok jsonData =>
      cases hp : env.Post
          (Sprintf "http://%s:%d/blogs/updateOrAdd" [.str config.Host, .int config.Port])
          (ascii "application/json") jsonData with
      | error e =>
        refine ⟨by simp [addCmd, hr, hm, hp], by simp [addCmd, hr, hm, hp, Event.isFailure],
          ?_, ?_⟩
        · intro ev hev hresp
          simp [addCmd, hr, hm, hp] at hev
          rcases hev with hev | hev | hev <;> subst hev <;> simp [Event.isResponse] at hresp
        · intro content2 jsonData2 resp body h1 h2 h3
          simp only [Except.ok.injEq] at h1
          subst h1
          rw [hm] at h2
          simp only [Except.ok.injEq] at h2
          subst h2
          rw [hp] at h3
          simp at h3
      | ok resp =>
        cases hb : io.ReadAll resp.Body with
        | mk data err =>
          cases err with
          | some e =>
            refine ⟨by simp [addCmd, hr, hm, hp, hb],
              by simp [addCmd, hr, hm, hp, hb, Event.isFailure], ?_, ?_⟩
            · intro ev hev hresp
              simp [addCmd, hr, hm, hp, hb] at hev
              rcases hev with hev | hev | hev <;> subst hev <;>
                simp [Event.isResponse] at hresp
            · intro content2 jsonData2 resp2 body h1 h2 h3 h4
              simp only [Except.ok.injEq] at h1
              subst h1
              rw [hm] at h2
              simp only [Except.ok.injEq] at h2
              subst h2
              rw [hp] at h3
              simp only [Except.ok.injEq] at h3
              subst h3
              rw [hb] at h4
              simp at h4
          | none =>
            refine ⟨by simp [addCmd, hr, hm, hp, hb],
              by simp [addCmd, hr, hm, hp, hb, Event.isFailure], ?_, ?_⟩
            · intro ev hev hresp
              simp [addCmd, hr, hm, hp, hb] at hev
              rcases hev with hev | hev | hev
              · subst hev; simp [Event.isResponse] at hresp
              · subst hev; simp [Event.isResponse] at hresp
              · exact ⟨content, jsonData, resp, data, rfl, hm, hp, hb, hev⟩
            · intro content2 jsonData2 resp2 body h1 h2 h3 h4
              simp only [Except.ok.injEq] at h1
              subst h1
              rw [hm] at h2
              simp only [Except.ok.injEq] at h2
              subst h2
              rw [hp] at h3
              simp only [Except.ok.injEq] at h3
              subst h3
              rw [hb] at h4
              simp only [Prod.mk.injEq, and_true] at h4
              subst h4
              simp [addCmd, hr, hm, hp, hb, Event.isFailure]

/-- C9 (as stated, refuted). The body that `add` posts for `post.md` has no member
called `id`, `title` or `viewCount`: its member names are not the lower-case names of
the specification. -/
theorem add_body_names_differ :
    ∃ d,
      posted (main exampleEnv (.add (ascii "post.md") (some 7) (some (ascii "Hi")))
        exampleFS).trace = [d] ∧
      d.members.map Prod.fst ≠
        ["id", "title", "content", "category", "tags", "viewCount", "author"] ∧
      d.get? "id" = none ∧ d.get? "title" = none ∧ d.get? "viewCount" = none :=
  ⟨⟨[("Id", .number 7), ("Title", .string (ascii "Hi")),
    ("Content", .string (ascii "# Hello")), ("Category", .string []),
    ("Tags", .string []), ("ViewCount", .number 0), ("Author", .string [])]⟩,
    by decide, by decide, by decide, by decide, by decide⟩

/-- C9 (amended). For every `Blog` that `add` builds, the body sent to
`/blogs/updateOrAdd` is one JSON object with exactly seven members, named `Id`, `Title`,
`Content`, `Category`, `Tags`, `ViewCount` and `Author` in this order, with number values
for `Id` and `ViewCount` and string values for the others. -/
theorem add_body_shape (env : Env) (fs : FS) (file : GoString) (cfg : Config)
    (fileName : GoString) (id : Option Int) (title : Option GoString) (content : Bytes)
    (hinit : init env fs = .ok (file, cfg))
    (hread : os.ReadFile fs fileName = .ok content) :
    ∃ d, posted (main env (.add fileName id title) fs).trace = [d] ∧
      json.Marshal ⟨id.getD 0, title.getD [], content, [], [], 0, []⟩ = .ok d ∧
      d.members.length = 7 ∧
      d.shape = [("Id", true), ("Title", false), ("Content", false), ("Category", false),
        ("Tags", false), ("ViewCount", true), ("Author", false)] := by
  rw [(main_add env fs file cfg fileName id title hinit).1]
  refine ⟨_, ?_, rfl, rfl, rfl⟩
  simp only [addCmd, hread, json.Marshal]
  cases hp : env.Post _ _ _ with
  | error e => rfl
  | ok resp =>
    simp only
    cases hb : io.ReadAll resp.Body with
    | mk body err => cases err <;> rfl

/-- Instance of C9 (amended): `add post.md --id 7`. -/
theorem add_body_shape_witness :
    ∃ d, posted (main exampleEnv (.add (ascii "post.md") (some 7) none) exampleFS).trace = [d] ∧
      json.Marshal ⟨7, [], ascii "# Hello", [], [], 0, []⟩ = .ok d ∧
      d.members.length = 7 ∧
      d.shape = [("Id", true), ("Title", false), ("Content", false), ("Category", false),
        ("Tags", false), ("ViewCount", true), ("Author", false)] :=
  add_body_shape exampleEnv exampleFS (ascii "/home/u/blog-cli.yaml")
    ⟨ascii "localhost", 8080⟩ (ascii "post.md") (some 7) none (ascii "# Hello")
    (by decide) (by decide)

/-- C10. `set` changes only the fields whose flag was given.  With the configuration
`(h0, p0)` loaded at start-up, `set` with neither flag leaves the in-memory
configuration `(h0, p0)`, `set --server h` makes it `(h, p0)` and `set --port p` makes
it `(h0, p)`; and whenever the save succeeds it is this configuration that is written
to the configuration file and reported. -/
theorem set_changes_given_flags_only (env : Env) (fs : FS) (file : GoString)
    (h0 : GoString) (p0 : Int) (hinit : init env fs = .ok (file, ⟨h0, p0⟩)) :
    (main env (.set none none) fs).config = some ⟨h0, p0⟩ ∧
    (∀ h, (main env (.set (some h) none) fs).config = some ⟨h, p0⟩) ∧
    (∀ p, (main env (.set none (some p)) fs).config = some ⟨h0, p⟩) ∧
    (∀ server port fs',
      SaveConfig env.yaml fs file ⟨server.getD h0, port.getD p0⟩ = .ok fs' →
      (main env (.set server port) fs).fs = fs' ∧
      (main env (.set server port) fs).status = 0 ∧
      (main env (.set server port) fs).trace =
        [.printf "Configuration updated:\nHost: %s\nPort: %d\n"
          [.str (server.getD h0), .int (port.getD p0)]]) := by
  refine ⟨?_, ?_, ?_, ?_⟩
  · rw [(main_set env fs file _ none none hinit).2.2.1]
    simp only [setCmd, Option.getD_none]
    cases SaveConfig env.yaml fs file ⟨h0, p0⟩ <;> rfl
  · intro h
    rw [(main_set env fs file _ (some h) none hinit).2.2.1]
    simp only [setCmd, Option.getD_none, Option.getD_some]
    cases SaveConfig env.yaml fs file ⟨h, p0⟩ <;> rfl
  · intro p
    rw [(main_set env fs file _ none (some p) hinit).2.2.1]
    simp only [setCmd, Option.getD_none, Option.getD_some]
    cases SaveConfig env.yaml fs file ⟨h0, p⟩ <;> rfl
  · intro server port fs' hs
    obtain ⟨ht, hst, _, hfs⟩ := main_set env fs file _ server port hinit
    rw [ht, hst, hfs]
    simp [setCmd, hs]

/-- Instance of C10: `set` without flags on `localhost:8080`. -/
theorem set_changes_given_flags_only_witness :
    (main exampleEnv (.set none none) exampleFS).config = some ⟨ascii "localhost", 8080⟩ :=
  (set_changes_given_flags_only exampleEnv exampleFS (ascii "/home/u/blog-cli.yaml")
    (ascii "localhost") 8080 (by decide)).1

end BlogCli
